import Mathlib

/-!
Verification of the fraud-detection dashboard backend
(`python-backend/app.py`): a shallow embedding of the schema
reconciliation, risk-tier mapping, analytics aggregation, evaluation
and trend steps of the Dash callback `update_output`, and of the
Flask endpoint `predict_csv`, together with theorems settling the
specification's claims about them.

Conventions of the embedding:
* A pandas `DataFrame` is an ordered association list of columns,
  each column a name paired with its list of cells.
* Numeric cells carry rationals (the claims only involve comparisons
  and exact sums, on which rationals agree with the floats the code
  uses); missing values (`NaN`/`NaT`) are the cell `Cell.nan`.
* The pickled scaler/classifier artifacts are opaque at startup, so
  the scorer is an abstract parameter: a function from the reconciled
  feature matrix to the label and probability columns, returning
  `none` when the underlying library call raises.
* Raised Python exceptions are `Except.error`: the whole `try` body
  of `update_output` is one `Except` computation, because any raised
  exception lands in the single `except` handler that replaces the
  entire output with an error panel.
-/

/-- A single cell of a table: a numeric value, a string, or a missing
value (pandas `NaN`/`NaT`). -/
inductive Cell where
  | num (q : ℚ)
  | str (s : String)
  | nan
deriving DecidableEq, Repr

/-- A column name. -/
abbrev Col := String

/-- A data frame: ordered list of named columns.  Column order is the
pandas column order; `read_csv` yields unique column names. -/
abbrev DF := List (Col × List Cell)

namespace DF

/-- `df.columns`: the ordered list of column names. -/
def columns (df : DF) : List Col := df.map Prod.fst

/-- `df[c]` as a lookup: the cells of column `c` (first match; column
names are unique after `read_csv`), or `none` when the column is
absent (pandas raises `KeyError`). -/
def getCol : DF → Col → Option (List Cell)
  | [], _ => none
  | (c2, v) :: t, c => if c2 = c then some v else getCol t c

/-- Number of rows (length of the first column; `0` for an empty
frame). -/
def nrows (df : DF) : ℕ :=
  match df with
  | [] => 0
  | (_, v) :: _ => v.length

/-- `df[c] = v`: replace column `c` in place when present, otherwise
append it at the end (pandas appends new columns after the existing
ones). -/
def setCol : DF → Col → List Cell → DF
  | [], c, v => [(c, v)]
  | (c2, w) :: t, c, v =>
    if c2 = c then (c, v) :: t else (c2, w) :: setCol t c v

/-- `df[cols]` column selection: `none` when any requested column is
missing (pandas `KeyError`), otherwise the frame with exactly those
columns in the requested order. -/
def select (df : DF) (cols : List Col) : Option DF :=
  if cols.all (fun c => (df.getCol c).isSome) then
    some (cols.map (fun c => (c, (df.getCol c).getD [])))
  else
    none

end DF

/-- The reconciliation loop of `update_output` (and of `predict_csv`):
`for col in expected_columns: if col not in df.columns: df[col] = 0`,
unrolled left to right; the scalar `0` broadcasts to a full column of
zeros. -/
def reconcile : List Col → DF → DF
  | [], df => df
  | c :: rest, df =>
    reconcile rest
      (if c ∈ df.columns then df
       else df.setCol c (List.replicate df.nrows (Cell.num 0)))

/-- The risk-tier mapping
`pd.cut(p, bins=[-0.01, 0.5, 0.7, 0.9, 1], labels=[...])` with the
pandas default `right=True`: the bins are the right-closed intervals
`(-0.01, 0.5]`, `(0.5, 0.7]`, `(0.7, 0.9]`, `(0.9, 1]`, and any value
outside their union is silently mapped to the missing value `NaN`
(here `none`); no exception is raised for any input. -/
def riskLevel (p : ℚ) : Option String :=
  if -1/100 < p ∧ p ≤ 1/2 then some "Safe"
  else if 1/2 < p ∧ p ≤ 7/10 then some "Low Risk"
  else if 7/10 < p ∧ p ≤ 9/10 then some "Medium Risk"
  else if 9/10 < p ∧ p ≤ 1 then some "High Risk"
  else none

/-- Ordinal rank of a tier name, for stating monotonicity. -/
def tierRank (s : String) : ℕ :=
  if s = "Safe" then 0
  else if s = "Low Risk" then 1
  else if s = "Medium Risk" then 2
  else 3

/-- The `Risk_Level` cell written into the frame: the tier label, or a
missing value when `pd.cut` yields `NaN`. -/
def riskCell (p : ℚ) : Cell :=
  match riskLevel p with
  | some s => Cell.str s
  | none => Cell.nan

/-- Line 118: `'Not Fraudulent' if p == 0 else 'Potentially Fraudulent'`. -/
def predictionLabel (p : ℤ) : String :=
  if p = 0 then "Not Fraudulent" else "Potentially Fraudulent"

/-- Numeric value of a cell for summation; pandas `.sum()` skips
missing values, which therefore contribute `0`. -/
def cellVal (c : Cell) : ℚ :=
  match c with
  | Cell.num q => q
  | _ => 0

/-- `df.loc[df['Prediction'] == 1, 'Amount'].sum()`: the sum of the
amount cells on the rows whose prediction is `1` (rows paired by
position, as the mask and the column come from the same frame). -/
def sumWhere : List ℤ → List Cell → ℚ
  | p :: ps, a :: as => (if p = 1 then cellVal a else 0) + sumWhere ps as
  | _, _ => 0

/-- The prevented-loss computation together with its rendering:
`df.loc[df['Prediction'] == 1, 'Amount'].sum()` (line 126) followed by
the currency format `f'...${fraud_loss_saved:,.2f}'` (line 147).  On a
numeric column pandas sums the selected cells, skipping missing
values, and the number formats fine; but when a selected cell is a
string (a CSV `Amount` column with any non-numeric token is parsed as
an object column of strings), the sum is a string concatenation — or a
`TypeError` on a mixed selection — and the `:,.2f` format raises
`ValueError`; either way the request aborts, modelled here by `none`. -/
def sumWhereChecked : List ℤ → List Cell → Option ℚ
  | p :: ps, a :: as =>
    match sumWhereChecked ps as with
    | none => none
    | some s =>
      if p = 1 then
        match a with
        | Cell.str _ => none
        | Cell.num q => some (q + s)
        | Cell.nan => some s
      else some s
  | _, _ => some 0

/-- The spec-side formula for the prevented-loss estimate: the sum of
the `Amount` value over exactly the row indices predicted `1`.  Stated
independently of the fold in `sumWhere` so that the two can be proved
equal. -/
def specPreventedLoss (preds : List ℤ) (amounts : List Cell) : ℚ :=
  ∑ i ∈ Finset.range preds.length,
    if preds.getD i 0 = 1 then cellVal (amounts.getD i Cell.nan) else 0

/-- The fraud rows `(original index, confidence)` in original row
order: `df[df['Prediction'] == 1]` restricted to the data the top-risk
claims are about.  `scoredRowsAux i` enumerates from index `i`. -/
def scoredRowsAux : ℕ → List ℤ → List ℚ → List (ℕ × ℚ)
  | _, [], _ => []
  | _, _ :: _, [] => []
  | i, p :: ps, c :: cs =>
    (if p = 1 then [(i, c)] else []) ++ scoredRowsAux (i + 1) ps cs

/-- The fraud rows of the scored frame, from index `0`. -/
def scoredRows (preds : List ℤ) (proba : List ℚ) : List (ℕ × ℚ) :=
  scoredRowsAux 0 preds proba

/-- Ascending comparison on confidence, used by the sort underlying
`sort_values(by='Confidence')`. -/
def confLE (a b : ℕ × ℚ) : Prop := a.2 ≤ b.2

instance : DecidableRel confLE := fun a b =>
  inferInstanceAs (Decidable (a.2 ≤ b.2))

instance : IsTotal (ℕ × ℚ) confLE := ⟨fun a b => le_total a.2 b.2⟩

instance : IsTrans (ℕ × ℚ) confLE := ⟨fun _ _ _ h h2 => le_trans h h2⟩

/-- `df[df['Prediction'] == 1].sort_values(by='Confidence',
ascending=False).head(5)`.  pandas `nargsort` computes the ascending
permutation and reverses it for `ascending=False`; on arrays below
numpy's introsort partition threshold the ascending sort is insertion
sort, which is stable, so the descending order is the reverse of the
stable ascending order.  `head(5)` takes the first five rows. -/
def topRiskRows (preds : List ℤ) (proba : List ℚ) : List (ℕ × ℚ) :=
  (((scoredRows preds proba).insertionSort confLE).reverse).take 5

/-- Whether sklearn's `confusion_matrix`/`roc_curve` pair (lines
175/180) accepts the ground-truth column without raising.
`confusion_matrix` requires discrete, type-consistent labels
(non-integral numbers raise `continuous is not supported`; strings
against integer predictions raise a label-type mix error), and
`roc_curve` additionally requires a binary label set whose positive
label can be inferred: its check accepts exactly the class sets
`[0 1]`, `[-1 1]`, `[0]`, `[-1]` and `[1]`, i.e. the nonempty subsets
of `{0, 1}` or of `{-1, 1}` (three or more classes raise
`multiclass format is not supported`, and an empty column fails the
positive-label inference). -/
def classColumnOk (cls : List Cell) : Bool :=
  !cls.isEmpty &&
    (cls.all (fun c => c = Cell.num 0 || c = Cell.num 1)
      || cls.all (fun c => c = Cell.num (-1) || c = Cell.num 1))

/-- The confusion matrix over `{0,1} × {0,1}` as the four counts
`(tn, fp, fn, tp)` of (actual, predicted) pairs. -/
def confusionCounts (cls : List Cell) (preds : List ℤ) : ℕ × ℕ × ℕ × ℕ :=
  let pairs := cls.zip preds
  ( (pairs.filter (fun x => x.1 = Cell.num 0 && x.2 = 0)).length
  , (pairs.filter (fun x => x.1 = Cell.num 0 && x.2 = 1)).length
  , (pairs.filter (fun x => x.1 = Cell.num 1 && x.2 = 0)).length
  , (pairs.filter (fun x => x.1 = Cell.num 1 && x.2 = 1)).length )

/-- `pd.to_datetime(t, unit='s', errors='coerce')` on one cell: a
numeric cell becomes the date for that many epoch seconds (represented
here by the number itself); anything else coerces to missing (`NaT`). -/
def toDate (c : Cell) : Cell :=
  match c with
  | Cell.num q => Cell.num q
  | _ => Cell.nan

/-- The frozen artifacts loaded at startup: the expected feature
columns from `feature_names.pkl`, and the opaque scaler+classifier
pipeline (`scaler.transform`, `model.predict`,
`model.predict_proba[:, 1]`) abstracted as one function from the
selected feature matrix to the label and probability columns, `none`
when the library call raises. -/
structure Artifacts where
  expected : List Col
  score : DF → Option (List ℤ × List ℚ)

/-- The exceptions that can escape the pipeline body: a scoring
failure, a `KeyError` from a missing column lookup, the
`TypeError`/`ValueError` raised when the `Amount` sum is non-numeric
and hits the currency format, and a failure of the evaluation metrics
on malformed ground truth. -/
inductive PError where
  | scoringError
  | keyError (c : Col)
  | valueError
  | evaluationError
deriving DecidableEq, Repr

/-- The result bundle rendered by `update_output` on success: the full
scored frame (also serialized as the download CSV), the prevented-loss
figure, the top-risk rows, the label-distribution counts, and the
optional evaluation and trend outputs. -/
structure Bundle where
  table : DF
  fraudLossSaved : ℚ
  topRisk : List (ℕ × ℚ)
  distribution : ℕ × ℕ
  evaluation : Option (ℕ × ℕ × ℕ × ℕ)
  trend : Option (List Cell)
deriving DecidableEq, Repr

/-- The scored frame: `df` after appending the `Prediction`,
`Prediction_Label`, `Confidence` and `Risk_Level` columns
(lines 117-123). -/
def scoredDF (df : DF) (preds : List ℤ) (proba : List ℚ) : DF :=
  ((((df.setCol "Prediction" (preds.map (fun p => Cell.num (p : ℚ)))).setCol
      "Prediction_Label" (preds.map (fun p => Cell.str (predictionLabel p)))).setCol
      "Confidence" (proba.map Cell.num)).setCol
      "Risk_Level" (proba.map riskCell))

/-- The score of an input frame: reconcile, select the expected
columns, and run the frozen scaler+model on the selection. -/
def scoreOf (A : Artifacts) (df0 : DF) : Option (List ℤ × List ℚ) :=
  match (reconcile A.expected df0).select A.expected with
  | some X => A.score X
  | none => none

/-- The body of the Dash callback `update_output` (lines 99-219),
as one `Except` computation: any raised exception falls through to the
single `except` handler, so every error aborts the whole bundle.
Steps in source order: reconcile (101-104), select (107), score
(110-114), append the four prediction columns (117-123), the
prevented-loss lookup which raises `KeyError` when `Amount` is absent
(126) and whose sum/format raises when the selected amounts are
non-numeric (126/147), the top-risk rows (129), the distribution
counts (133), the optional evaluation on `Class` (174-190), the
optional trend on `Time` which appends a `Date` column to the frame
(193-203), and the download CSV serialized from the final frame
(206). -/
def update_output (A : Artifacts) (df0 : DF) : Except PError Bundle :=
  let df1 := reconcile A.expected df0
  match df1.select A.expected with
  | none => Except.error PError.scoringError
  | some X =>
    match A.score X with
    | none => Except.error PError.scoringError
    | some (preds, proba) =>
      let df5 := scoredDF df1 preds proba
      match df5.getCol "Amount" with
      | none => Except.error (PError.keyError "Amount")
      | some amounts =>
        match sumWhereChecked preds amounts with
        | none => Except.error PError.valueError
        | some fls =>
          let top := topRiskRows preds proba
          let dist := (preds.count 0, preds.count 1)
          match df5.getCol "Class" with
          | some cls =>
            if classColumnOk cls then
              let ev := some (confusionCounts cls preds)
              match df5.getCol "Time" with
              | some times =>
                let dates := times.map toDate
                Except.ok ⟨df5.setCol "Date" dates, fls, top, dist, ev, some dates⟩
              | none => Except.ok ⟨df5, fls, top, dist, ev, none⟩
            else Except.error PError.evaluationError
          | none =>
            match df5.getCol "Time" with
            | some times =>
              let dates := times.map toDate
              Except.ok ⟨df5.setCol "Date" dates, fls, top, dist, none, some dates⟩
            | none => Except.ok ⟨df5, fls, top, dist, none, none⟩

instance {ε α : Type} [DecidableEq ε] [DecidableEq α] :
    DecidableEq (Except ε α) := fun a b =>
  match a, b with
  | Except.ok x, Except.ok y =>
    if h : x = y then isTrue (by rw [h]) else isFalse (by simpa using h)
  | Except.error x, Except.error y =>
    if h : x = y then isTrue (by rw [h]) else isFalse (by simpa using h)
  | Except.ok _, Except.error _ => isFalse Except.noConfusion
  | Except.error _, Except.ok _ => isFalse Except.noConfusion

/-- An HTTP response of the `/predict_csv` endpoint: the status code,
the optional `Content-Disposition` header, and the CSV body as a frame
(`none` for the plain-text error bodies). -/
structure HttpResponse where
  status : ℕ
  contentDisposition : Option String
  body : Option DF
deriving DecidableEq, Repr

/-- The Flask endpoint `predict_csv` (lines 243-275).  The request's
file field is `none` when absent; otherwise a filename together with
the parsed frame (`none` when `pd.read_csv` raises).  Missing field or
empty filename give `400`; any exception in the body gives `500`; on
success the frame gains the reconciliation fill columns plus
`Prediction` and `Confidence`, and is returned with status `200` and a
`Content-Disposition: attachment` header. -/
def predict_csv (A : Artifacts) (file : Option (String × Option DF)) :
    HttpResponse :=
  match file with
  | none => ⟨400, none, none⟩
  | some (filename, content) =>
    if filename = "" then ⟨400, none, none⟩
    else
      match content with
      | none => ⟨500, none, none⟩
      | some df0 =>
        let df1 := reconcile A.expected df0
        match df1.select A.expected with
        | none => ⟨500, none, none⟩
        | some X =>
          match A.score X with
          | none => ⟨500, none, none⟩
          | some (preds, proba) =>
            let df2 := (df1.setCol "Prediction"
                (preds.map (fun p => Cell.num (p : ℚ)))).setCol
                "Confidence" (proba.map Cell.num)
            ⟨200, some "attachment; filename=predictions.csv", some df2⟩

/-! ## Infrastructure lemmas about the frame operations -/

namespace DF

theorem getCol_eq_none_iff (df : DF) (c : Col) :
    df.getCol c = none ↔ c ∉ df.columns := by
  induction df with
  | nil => simp [getCol, columns]
  | cons p t ih =>
    obtain ⟨c2, v⟩ := p
    by_cases h : c2 = c
    · subst h
      simp [getCol, columns]
    · simp [getCol, columns, h, Ne.symm h, ih]

theorem getCol_isSome_iff (df : DF) (c : Col) :
    (df.getCol c).isSome ↔ c ∈ df.columns := by
  induction df with
  | nil => simp [getCol, columns]
  | cons p t ih =>
    obtain ⟨c2, v⟩ := p
    by_cases h : c2 = c
    · subst h
      simp [getCol, columns]
    · simp [getCol, columns, h, Ne.symm h, ih]

theorem getCol_setCol (df : DF) (c c2 : Col) (v : List Cell) :
    (df.setCol c v).getCol c2 = if c2 = c then some v else df.getCol c2 := by
  induction df with
  | nil =>
    by_cases h : c2 = c
    · simp [setCol, getCol, h]
    · have h2 : ¬ c = c2 := fun hh => h hh.symm
      simp [setCol, getCol, h, h2]
  | cons p t ih =>
    obtain ⟨c3, w⟩ := p
    by_cases h3 : c3 = c
    · by_cases hc : c2 = c
      · simp [setCol, getCol, h3, hc]
      · have hcc : ¬ c = c2 := fun hh => hc hh.symm
        have h32 : ¬ c3 = c2 := fun hh => hc (hh.symm.trans h3)
        simp [setCol, getCol, h3, hc, hcc, h32]
    · by_cases hc : c2 = c
      · have h32 : ¬ c3 = c2 := fun hh => h3 (hh.trans hc)
        simp only [setCol, if_neg h3, getCol, if_neg h32, if_pos hc]
        simpa [hc] using ih
      · simp [setCol, getCol, h3, hc, ih]

theorem columns_setCol (df : DF) (c : Col) (v : List Cell) :
    (df.setCol c v).columns =
      if c ∈ df.columns then df.columns else df.columns ++ [c] := by
  induction df with
  | nil => simp [setCol, columns]
  | cons p t ih =>
    obtain ⟨c3, w⟩ := p
    by_cases h3 : c3 = c
    · simp [setCol, columns, h3]
    · have hset : setCol ((c3, w) :: t) c v = (c3, w) :: setCol t c v := by
        rw [setCol, if_neg h3]
      have hcols : ∀ (u : List Cell) (s : DF),
          columns ((c3, u) :: s) = c3 :: columns s := fun _ _ => rfl
      rw [hset, hcols, ih, hcols]
      by_cases hm : c ∈ List.map Prod.fst t <;>
        simp [columns, hm, Ne.symm h3]

theorem columns_setCol_of_not_mem (df : DF) (c : Col) (v : List Cell)
    (h : c ∉ df.columns) :
    (df.setCol c v).columns = df.columns ++ [c] := by
  simp [columns_setCol, h]

theorem nrows_setCol_replicate (df : DF) (c : Col) (x : Cell) :
    (df.setCol c (List.replicate df.nrows x)).nrows = df.nrows := by
  cases df with
  | nil => simp [setCol, nrows]
  | cons p t =>
    obtain ⟨c3, w⟩ := p
    by_cases h3 : c3 = c <;> simp [setCol, nrows, h3]

end DF

theorem nrows_reconcile (e : List Col) (df : DF) :
    (reconcile e df).nrows = df.nrows := by
  induction e generalizing df with
  | nil => rfl
  | cons c rest ih =>
    by_cases h : c ∈ df.columns <;>
      simp [reconcile, h, ih, DF.nrows_setCol_replicate]

theorem getCol_reconcile (e : List Col) (df : DF) (c : Col) :
    (reconcile e df).getCol c =
      if c ∈ df.columns then df.getCol c
      else if c ∈ e then some (List.replicate df.nrows (Cell.num 0))
      else none := by
  induction e generalizing df with
  | nil =>
    by_cases h : c ∈ df.columns
    · simp [reconcile, h]
    · simp [reconcile, h, (DF.getCol_eq_none_iff df c).mpr h]
  | cons c0 rest ih =>
    by_cases h0 : c0 ∈ df.columns
    · have hstep : reconcile (c0 :: rest) df = reconcile rest df := by
        simp [reconcile, h0]
      rw [hstep, ih]
      by_cases hm : c ∈ df.columns
      · simp [hm]
      · have hne : c ≠ c0 := fun hh => hm (hh ▸ h0)
        simp [hm, hne]
    · have hstep : reconcile (c0 :: rest) df
          = reconcile rest (df.setCol c0 (List.replicate df.nrows (Cell.num 0))) := by
        simp [reconcile, h0]
      rw [hstep, ih, DF.getCol_setCol, DF.columns_setCol_of_not_mem _ _ _ h0,
        DF.nrows_setCol_replicate]
      by_cases hc0 : c = c0
      · simp [hc0, h0]
      · by_cases hm : c ∈ df.columns <;> simp [hm, hc0]

theorem columns_reconcile (e : List Col) (df : DF) (he : e.Nodup) :
    (reconcile e df).columns =
      df.columns ++ e.filter (fun c => decide (c ∉ df.columns)) := by
  induction e generalizing df with
  | nil => simp [reconcile]
  | cons c0 rest ih =>
    have hn0 : c0 ∉ rest := (List.nodup_cons.mp he).1
    have hnr : rest.Nodup := (List.nodup_cons.mp he).2
    by_cases h0 : c0 ∈ df.columns
    · have hstep : reconcile (c0 :: rest) df = reconcile rest df := by
        simp [reconcile, h0]
      rw [hstep, ih _ hnr]
      simp [List.filter_cons, h0]
    · have hstep : reconcile (c0 :: rest) df
          = reconcile rest (df.setCol c0 (List.replicate df.nrows (Cell.num 0))) := by
        simp [reconcile, h0]
      rw [hstep, ih _ hnr, DF.columns_setCol_of_not_mem _ _ _ h0]
      have hfilter :
          rest.filter (fun c => decide (c ∉ (df.columns ++ [c0]))) =
          rest.filter (fun c => decide (c ∉ df.columns)) := by
        apply List.filter_congr
        intro x hx
        have hxne : x ≠ c0 := fun hh => hn0 (hh ▸ hx)
        simp [hxne]
      rw [hfilter]
      simp [List.filter_cons, h0, List.append_assoc]

theorem mem_columns_reconcile (e : List Col) (df : DF) (c : Col) :
    c ∈ (reconcile e df).columns ↔ c ∈ df.columns ∨ c ∈ e := by
  rw [← DF.getCol_isSome_iff, getCol_reconcile]
  by_cases hm : c ∈ df.columns
  · simp [hm, (DF.getCol_isSome_iff df c).mpr hm]
  · by_cases he : c ∈ e <;> simp [hm, he]

theorem select_reconcile (e : List Col) (df : DF) :
    ∃ X, (reconcile e df).select e = some X ∧ X.columns = e := by
  have hall : ∀ c ∈ e, ((reconcile e df).getCol c).isSome := by
    intro c hc
    rw [DF.getCol_isSome_iff, mem_columns_reconcile]
    exact Or.inr hc
  refine ⟨e.map (fun c => (c, ((reconcile e df).getCol c).getD [])), ?_, ?_⟩
  · rw [DF.select, if_pos]
    simpa using hall
  · show List.map Prod.fst (e.map _) = e
    rw [List.map_map]
    have hid : (Prod.fst ∘ fun c : Col =>
        (c, ((reconcile e df).getCol c).getD [])) = id := rfl
    rw [hid, List.map_id]

/-! ## Risk-tier lemmas -/

theorem riskLevel_safe (p : ℚ) (h0 : -1/100 < p) (h1 : p ≤ 1/2) :
    riskLevel p = some "Safe" := by
  unfold riskLevel
  rw [if_pos ⟨h0, h1⟩]

theorem riskLevel_low (p : ℚ) (h0 : 1/2 < p) (h1 : p ≤ 7/10) :
    riskLevel p = some "Low Risk" := by
  have ha : ¬(-1/100 < p ∧ p ≤ 1/2) := fun h => absurd h.2 (not_le.mpr h0)
  unfold riskLevel
  rw [if_neg ha, if_pos ⟨h0, h1⟩]

theorem riskLevel_medium (p : ℚ) (h0 : 7/10 < p) (h1 : p ≤ 9/10) :
    riskLevel p = some "Medium Risk" := by
  have ha : ¬(-1/100 < p ∧ p ≤ 1/2) :=
    fun h => absurd h.2 (not_le.mpr (by linarith))
  have hb : ¬(1/2 < p ∧ p ≤ 7/10) := fun h => absurd h.2 (not_le.mpr h0)
  unfold riskLevel
  rw [if_neg ha, if_neg hb, if_pos ⟨h0, h1⟩]

theorem riskLevel_high (p : ℚ) (h0 : 9/10 < p) (h1 : p ≤ 1) :
    riskLevel p = some "High Risk" := by
  have ha : ¬(-1/100 < p ∧ p ≤ 1/2) :=
    fun h => absurd h.2 (not_le.mpr (by linarith))
  have hb : ¬(1/2 < p ∧ p ≤ 7/10) :=
    fun h => absurd h.2 (not_le.mpr (by linarith))
  have hc : ¬(7/10 < p ∧ p ≤ 9/10) := fun h => absurd h.2 (not_le.mpr h0)
  unfold riskLevel
  rw [if_neg ha, if_neg hb, if_neg hc, if_pos ⟨h0, h1⟩]

theorem riskLevel_none_of_gt_one (p : ℚ) (h : 1 < p) : riskLevel p = none := by
  have ha : ¬(-1/100 < p ∧ p ≤ 1/2) :=
    fun hh => absurd hh.2 (not_le.mpr (by linarith))
  have hb : ¬(1/2 < p ∧ p ≤ 7/10) :=
    fun hh => absurd hh.2 (not_le.mpr (by linarith))
  have hc : ¬(7/10 < p ∧ p ≤ 9/10) :=
    fun hh => absurd hh.2 (not_le.mpr (by linarith))
  have hd : ¬(9/10 < p ∧ p ≤ 1) := fun hh => absurd hh.2 (not_le.mpr h)
  unfold riskLevel
  rw [if_neg ha, if_neg hb, if_neg hc, if_neg hd]

theorem riskLevel_none_of_le (p : ℚ) (h : p ≤ -1/100) : riskLevel p = none := by
  have ha : ¬(-1/100 < p ∧ p ≤ 1/2) := fun hh => absurd hh.1 (not_lt.mpr h)
  have hb : ¬(1/2 < p ∧ p ≤ 7/10) :=
    fun hh => absurd hh.1 (not_lt.mpr (by linarith))
  have hc : ¬(7/10 < p ∧ p ≤ 9/10) :=
    fun hh => absurd hh.1 (not_lt.mpr (by linarith))
  have hd : ¬(9/10 < p ∧ p ≤ 1) :=
    fun hh => absurd hh.1 (not_lt.mpr (by linarith))
  unfold riskLevel
  rw [if_neg ha, if_neg hb, if_neg hc, if_neg hd]

theorem riskLevel_bands (p : ℚ) (h0 : 0 ≤ p) (h1 : p ≤ 1) :
    riskLevel p =
      some (if p ≤ 1/2 then "Safe" else if p ≤ 7/10 then "Low Risk"
        else if p ≤ 9/10 then "Medium Risk" else "High Risk") := by
  by_cases hA : p ≤ 1/2
  · rw [if_pos hA]
    exact riskLevel_safe p (by linarith) hA
  · rw [if_neg hA]
    by_cases hB : p ≤ 7/10
    · rw [if_pos hB]
      exact riskLevel_low p (not_le.mp hA) hB
    · rw [if_neg hB]
      by_cases hC : p ≤ 9/10
      · rw [if_pos hC]
        exact riskLevel_medium p (not_le.mp hB) hC
      · rw [if_neg hC]
        exact riskLevel_high p (not_le.mp hC) h1

theorem tierRank_band_mono (p q : ℚ) (hpq : p ≤ q) :
    tierRank (if p ≤ 1/2 then "Safe" else if p ≤ 7/10 then "Low Risk"
        else if p ≤ 9/10 then "Medium Risk" else "High Risk")
      ≤ tierRank (if q ≤ 1/2 then "Safe" else if q ≤ 7/10 then "Low Risk"
        else if q ≤ 9/10 then "Medium Risk" else "High Risk") := by
  split_ifs <;> simp [tierRank] <;> linarith

/-! ## Claim C2: risk-tier bands -/

/-- C2 (corrected): the tiers follow the right-closed bands of
`pd.cut`: `[0, 0.5] → Safe`, `(0.5, 0.7] → Low Risk`,
`(0.7, 0.9] → Medium Risk`, `(0.9, 1] → High Risk` — each boundary
value belongs to the lower tier — and the tier is monotone
non-decreasing in the confidence on `[0, 1]`. -/
theorem risk_tier_bands_mono (p q : ℚ) (hp0 : 0 ≤ p) (hp1 : p ≤ 1)
    (hq0 : 0 ≤ q) (hq1 : q ≤ 1) (hpq : p ≤ q) :
    (p ≤ 1/2 → riskLevel p = some "Safe")
    ∧ (1/2 < p → p ≤ 7/10 → riskLevel p = some "Low Risk")
    ∧ (7/10 < p → p ≤ 9/10 → riskLevel p = some "Medium Risk")
    ∧ (9/10 < p → riskLevel p = some "High Risk")
    ∧ ∃ sp sq, riskLevel p = some sp ∧ riskLevel q = some sq
        ∧ tierRank sp ≤ tierRank sq := by
  refine ⟨fun h => riskLevel_safe p (by linarith) h,
    fun h1 h2 => riskLevel_low p h1 h2,
    fun h1 h2 => riskLevel_medium p h1 h2,
    fun h => riskLevel_high p h hp1,
    ⟨_, _, riskLevel_bands p hp0 hp1, riskLevel_bands q hq0 hq1,
      tierRank_band_mono p q hpq⟩⟩

/-- C2 witness: the claim theorem instantiated at the confidences `0`
and `1`. -/
theorem risk_tier_bands_mono_witness :
    riskLevel 0 = some "Safe"
    ∧ ∃ sp sq, riskLevel 0 = some sp ∧ riskLevel 1 = some sq
        ∧ tierRank sp ≤ tierRank sq := by
  obtain ⟨hsafe, _, _, _, hmono⟩ :=
    risk_tier_bands_mono 0 1 (by norm_num) (by norm_num) (by norm_num)
      (by norm_num) (by norm_num)
  exact ⟨hsafe (by norm_num), hmono⟩

section
attribute [local semireducible] Rat.add Rat.mul Rat.inv Rat.sub

/-- C2 counterexample: the boundary confidences `0.5`, `0.7` and `0.9`
each land in the lower tier, not the upper one as the claim states
(`pd.cut` bins are right-closed): `0.5` is `Safe`, not `Low Risk`,
`0.7` is `Low Risk`, and `0.9` is `Medium Risk`. -/
theorem risk_tier_boundary_counterexample :
    riskLevel (1/2) = some "Safe"
    ∧ riskLevel (1/2) ≠ some "Low Risk"
    ∧ riskLevel (7/10) = some "Low Risk"
    ∧ riskLevel (9/10) = some "Medium Risk" := by
  refine ⟨by decide, by decide, by decide, by decide⟩

end

/-! ## Claim C8: totality of the risk-tier mapping -/

/-- C8 (corrected): the tier mapping is total and never fails on
`[0, 1]`; outside `[0, 1]` it does not raise any error: it silently
yields a missing tier for values above `1` or at most `-0.01`, and
even returns `Safe` for values in `(-0.01, 0)`. -/
theorem risk_tier_total_silent (p : ℚ) :
    (0 ≤ p → p ≤ 1 → ∃ s, riskLevel p = some s)
    ∧ (1 < p → riskLevel p = none)
    ∧ (p ≤ -1/100 → riskLevel p = none)
    ∧ (-1/100 < p → p < 0 → riskLevel p = some "Safe") := by
  exact ⟨fun h0 h1 => ⟨_, riskLevel_bands p h0 h1⟩,
    riskLevel_none_of_gt_one p,
    riskLevel_none_of_le p,
    fun h0 h1 => riskLevel_safe p h0 (by linarith)⟩

/-- C8 witness: the claim theorem instantiated at `1/4` (inside the
range) and `3/2` (outside). -/
theorem risk_tier_total_silent_witness :
    (∃ s, riskLevel (1/4) = some s) ∧ riskLevel (3/2) = none :=
  ⟨(risk_tier_total_silent (1/4)).1 (by norm_num) (by norm_num),
    (risk_tier_total_silent (3/2)).2.1 (by norm_num)⟩

section
attribute [local semireducible] Rat.add Rat.mul Rat.inv Rat.sub

/-- C8 counterexample: no `RiskRangeError` exists — for the
out-of-range probability `2` the mapping silently produces a missing
tier, and for `-0.005` it even produces the tier `Safe`. -/
theorem risk_range_error_counterexample :
    riskLevel 2 = none ∧ riskLevel (-1/200) = some "Safe" := by
  refine ⟨by decide, by decide⟩

end

/-! ## Claim C10: prediction label -/

/-- C10: the `Prediction_Label` equals `Not Fraudulent` exactly when
the prediction is `0`, and `Potentially Fraudulent` for every other
prediction value. -/
theorem prediction_label_iff (p : ℤ) :
    (predictionLabel p = "Not Fraudulent" ↔ p = 0)
    ∧ (p ≠ 0 → predictionLabel p = "Potentially Fraudulent") := by
  unfold predictionLabel
  constructor
  · by_cases h : p = 0 <;> simp [h]
  · intro h
    simp [h]

/-- C10 witness: the claim theorem instantiated at the predictions `2`
and `0`. -/
theorem prediction_label_iff_witness :
    predictionLabel 2 = "Potentially Fraudulent"
    ∧ predictionLabel 0 = "Not Fraudulent" :=
  ⟨(prediction_label_iff 2).2 (by decide), (prediction_label_iff 0).1.mpr rfl⟩

/-! ## Claim C1: schema reconciliation -/

/-- C1: after reconciliation every schema column absent from the input
is present and filled with zeros, every input column keeps its values,
and the matrix selected for the scaler consists of exactly the
schema's columns in schema order (so input columns outside the schema
are excluded from that matrix but retained in the table). -/
theorem reconcile_schema_exact (e : List Col) (df : DF) :
    (∀ c, c ∈ e → c ∉ df.columns →
        (reconcile e df).getCol c = some (List.replicate df.nrows (Cell.num 0)))
    ∧ (∀ c, c ∈ df.columns → (reconcile e df).getCol c = df.getCol c)
    ∧ (∃ X, (reconcile e df).select e = some X ∧ X.columns = e) := by
  refine ⟨?_, ?_, select_reconcile e df⟩
  · intro c hce hcd
    rw [getCol_reconcile]
    simp [hcd, hce]
  · intro c hcd
    rw [getCol_reconcile]
    simp [hcd]

/-- C1 witness: the claim theorem instantiated on a two-column schema
and an input that misses one schema column and carries one extra
column. -/
theorem reconcile_schema_exact_witness :
    (reconcile ["V1", "V2"] [("V2", [Cell.num 5]), ("Amount", [Cell.num 7])]).getCol "V1"
      = some [Cell.num 0]
    ∧ (reconcile ["V1", "V2"] [("V2", [Cell.num 5]), ("Amount", [Cell.num 7])]).getCol "Amount"
      = some [Cell.num 7]
    ∧ ∃ X, (reconcile ["V1", "V2"]
        [("V2", [Cell.num 5]), ("Amount", [Cell.num 7])]).select ["V1", "V2"]
          = some X ∧ X.columns = ["V1", "V2"] := by
  obtain ⟨h1, h2, h3⟩ := reconcile_schema_exact ["V1", "V2"]
    [("V2", [Cell.num 5]), ("Amount", [Cell.num 7])]
  refine ⟨?_, ?_, h3⟩
  · have hv := h1 "V1" (by decide) (by decide)
    simpa [DF.nrows] using hv
  · have ha := h2 "Amount" (by decide)
    rw [ha]
    decide

/-! ## Claim C4: top-risk rows -/

theorem mem_scoredRowsAux (i : ℕ) (ps : List ℤ) (cs : List ℚ) (x : ℕ × ℚ)
    (hx : x ∈ scoredRowsAux i ps cs) :
    ∃ j, x.1 = i + j ∧ ps[j]? = some 1 ∧ cs[j]? = some x.2 := by
  induction ps generalizing i cs with
  | nil => simp [scoredRowsAux] at hx
  | cons p pt ih =>
    cases cs with
    | nil => simp [scoredRowsAux] at hx
    | cons c ct =>
      simp only [scoredRowsAux] at hx
      rcases List.mem_append.mp hx with h1 | h2
      · by_cases hp : p = 1
        · rw [if_pos hp] at h1
          have hx1 : x = (i, c) := by simpa using h1
          exact ⟨0, by simp [hx1], by simp [hp], by simp [hx1]⟩
        · rw [if_neg hp] at h1
          simp at h1
      · obtain ⟨j, hj1, hj2, hj3⟩ := ih (i + 1) ct h2
        exact ⟨j + 1, by omega, by simpa using hj2, by simpa using hj3⟩

/-- C4 (corrected): the top-risk list contains only rows predicted
`1`, has at most `5` elements, and is ordered by non-increasing
confidence; but rows of equal confidence do not keep their original
order (the descending order is the reverse of an ascending sort, so
tied rows come out in reversed original order). -/
theorem top_risk_only_fraud_sorted (preds : List ℤ) (proba : List ℚ) :
    (topRiskRows preds proba).length ≤ 5
    ∧ (topRiskRows preds proba).Pairwise (fun a b => b.2 ≤ a.2)
    ∧ ∀ x, x ∈ topRiskRows preds proba →
        preds[x.1]? = some 1 ∧ proba[x.1]? = some x.2 := by
  refine ⟨?_, ?_, ?_⟩
  · simp [topRiskRows]
  · have hs : List.Sorted confLE ((scoredRows preds proba).insertionSort confLE) :=
      List.sorted_insertionSort confLE _
    have hrev :
        (((scoredRows preds proba).insertionSort confLE).reverse).Pairwise
          (fun a b => confLE b a) :=
      List.pairwise_reverse.mpr hs
    exact (hrev.sublist (List.take_sublist 5 _)).imp (fun h => h)
  · intro x hx
    have hx2 : x ∈ ((scoredRows preds proba).insertionSort confLE).reverse :=
      (List.take_sublist 5 _).subset hx
    have hx3 : x ∈ scoredRows preds proba := by
      rw [List.mem_reverse] at hx2
      simpa using hx2
    obtain ⟨j, hj1, hj2, hj3⟩ := mem_scoredRowsAux 0 preds proba x hx3
    have hj : j = x.1 := by omega
    subst hj
    exact ⟨hj2, hj3⟩

section
attribute [local semireducible] Rat.add Rat.mul Rat.inv Rat.sub

/-- C4 counterexample: two rows predicted `1` with equal confidence
`0.9` come out as index `1` before index `0` — the reverse of their
original order — so the tie-breaking is not the stable original
order the claim states. -/
theorem top_risk_tie_counterexample :
    topRiskRows [1, 1] [9/10, 9/10] = [(1, 9/10), (0, 9/10)]
    ∧ topRiskRows [1, 1] [9/10, 9/10] ≠ [(0, 9/10), (1, 9/10)] := by
  refine ⟨by decide, by decide⟩

/-- C4 witness: the claim theorem instantiated on a two-row table with
one fraud row. -/
theorem top_risk_only_fraud_sorted_witness :
    (topRiskRows [1, 0] [3/4, 1/2]).length ≤ 5
    ∧ ([1, 0] : List ℤ)[(0 : ℕ)]? = some 1
    ∧ ([3/4, 1/2] : List ℚ)[(0 : ℕ)]? = some (3/4) := by
  obtain ⟨h1, _, h3⟩ := top_risk_only_fraud_sorted [1, 0] [3/4, 1/2]
  have hx := h3 (0, 3/4) (by decide)
  exact ⟨h1, hx.1, hx.2⟩

end

/-! ## Pipeline lemmas -/

theorem getCol_scoredDF (df : DF) (preds : List ℤ) (proba : List ℚ) (c : Col)
    (h1 : c ≠ "Prediction") (h2 : c ≠ "Prediction_Label")
    (h3 : c ≠ "Confidence") (h4 : c ≠ "Risk_Level") :
    (scoredDF df preds proba).getCol c = df.getCol c := by
  unfold scoredDF
  rw [DF.getCol_setCol, if_neg h4, DF.getCol_setCol, if_neg h3,
    DF.getCol_setCol, if_neg h2, DF.getCol_setCol, if_neg h1]

theorem getCol_scored_reconcile (A : Artifacts) (df0 : DF)
    (preds : List ℤ) (proba : List ℚ) (c : Col)
    (h1 : c ≠ "Prediction") (h2 : c ≠ "Prediction_Label")
    (h3 : c ≠ "Confidence") (h4 : c ≠ "Risk_Level") :
    (scoredDF (reconcile A.expected df0) preds proba).getCol c =
      if c ∈ df0.columns then df0.getCol c
      else if c ∈ A.expected then some (List.replicate df0.nrows (Cell.num 0))
      else none := by
  rw [getCol_scoredDF _ _ _ _ h1 h2 h3 h4, getCol_reconcile]

theorem columns_scoredDF (df : DF) (preds : List ℤ) (proba : List ℚ)
    (h1 : "Prediction" ∉ df.columns) (h2 : "Prediction_Label" ∉ df.columns)
    (h3 : "Confidence" ∉ df.columns) (h4 : "Risk_Level" ∉ df.columns) :
    (scoredDF df preds proba).columns =
      df.columns ++ ["Prediction", "Prediction_Label", "Confidence", "Risk_Level"] := by
  unfold scoredDF
  set d1 := df.setCol "Prediction" (preds.map (fun p => Cell.num (p : ℚ))) with hd1
  set d2 := d1.setCol "Prediction_Label"
    (preds.map (fun p => Cell.str (predictionLabel p))) with hd2
  set d3 := d2.setCol "Confidence" (proba.map Cell.num) with hd3
  have e1 : d1.columns = df.columns ++ ["Prediction"] :=
    DF.columns_setCol_of_not_mem _ _ _ h1
  have e2 : d2.columns = df.columns ++ ["Prediction", "Prediction_Label"] := by
    rw [hd2, DF.columns_setCol_of_not_mem _ _ _ (by rw [e1]; simp [h2]), e1,
      List.append_assoc]
    simp
  have e3 : d3.columns
      = df.columns ++ ["Prediction", "Prediction_Label", "Confidence"] := by
    rw [hd3, DF.columns_setCol_of_not_mem _ _ _ (by rw [e2]; simp [h3]), e2,
      List.append_assoc]
    simp
  rw [DF.columns_setCol_of_not_mem _ _ _ (by rw [e3]; simp [h4]), e3,
    List.append_assoc]
  simp

theorem sumWhere_eq_specPreventedLoss (preds : List ℤ) (amounts : List Cell) :
    sumWhere preds amounts = specPreventedLoss preds amounts := by
  induction preds generalizing amounts with
  | nil => simp [sumWhere, specPreventedLoss]
  | cons p ps ih =>
    cases amounts with
    | nil => simp [sumWhere, specPreventedLoss, cellVal]
    | cons a as =>
      have hsw : sumWhere (p :: ps) (a :: as)
          = (if p = 1 then cellVal a else 0) + sumWhere ps as := rfl
      rw [hsw, ih]
      simp only [specPreventedLoss, List.length_cons]
      rw [Finset.sum_range_succ']
      simp only [List.getD_cons_succ, List.getD_cons_zero]
      ring

theorem sumWhereChecked_some (preds : List ℤ) (amounts : List Cell) (s : ℚ)
    (h : sumWhereChecked preds amounts = some s) :
    s = sumWhere preds amounts := by
  induction preds generalizing amounts s with
  | nil =>
    simp [sumWhereChecked] at h
    simp [sumWhere, h]
  | cons p ps ih =>
    cases amounts with
    | nil =>
      simp [sumWhereChecked] at h
      simp [sumWhere, h]
    | cons a as =>
      rw [sumWhereChecked] at h
      cases hrec : sumWhereChecked ps as with
      | none =>
        simp only [hrec] at h
        exact Option.noConfusion h
      | some s0 =>
        simp only [hrec] at h
        have hs0 := ih as s0 hrec
        have hsw : sumWhere (p :: ps) (a :: as)
            = (if p = 1 then cellVal a else 0) + sumWhere ps as := rfl
        by_cases hp : p = 1
        · rw [if_pos hp] at h
          cases a with
          | str t => exact Option.noConfusion h
          | num q =>
            have hq : s = q + s0 := by
              simpa using h.symm
            rw [hsw, if_pos hp, hq, hs0]
            rfl
          | nan =>
            have hq : s = s0 := by
              simpa using h.symm
            rw [hsw, if_pos hp, hq, hs0]
            simp [cellVal]
        · rw [if_neg hp] at h
          have hq : s = s0 := by
            simpa using h.symm
          rw [hsw, if_neg hp, hq, hs0]
          simp

theorem scoreOf_eq (A : Artifacts) (df0 X : DF)
    (r : Option (List ℤ × List ℚ))
    (hsel : (reconcile A.expected df0).select A.expected = some X)
    (hscore : scoreOf A df0 = r) : A.score X = r := by
  unfold scoreOf at hscore
  rw [hsel] at hscore
  exact hscore

theorem update_output_ok_fields (A : Artifacts) (df0 X : DF)
    (preds : List ℤ) (proba : List ℚ) (amounts : List Cell) (b : Bundle)
    (hsel : (reconcile A.expected df0).select A.expected = some X)
    (hsc : A.score X = some (preds, proba))
    (hAm5 : (scoredDF (reconcile A.expected df0) preds proba).getCol "Amount"
      = some amounts)
    (hok : update_output A df0 = Except.ok b) :
    b.fraudLossSaved = sumWhere preds amounts
    ∧ b.topRisk = topRiskRows preds proba
    ∧ b.distribution = (preds.count 0, preds.count 1) := by
  simp only [update_output, hsel, hsc, hAm5] at hok
  cases hchk : sumWhereChecked preds amounts with
  | none =>
    simp only [hchk] at hok
    exact Except.noConfusion hok
  | some fls =>
    simp only [hchk] at hok
    have hfls : fls = sumWhere preds amounts :=
      sumWhereChecked_some preds amounts fls hchk
    cases hcls : (scoredDF (reconcile A.expected df0) preds proba).getCol "Class" with
    | none =>
      simp only [hcls] at hok
      cases htime : (scoredDF (reconcile A.expected df0) preds proba).getCol "Time" with
      | none =>
        simp only [htime] at hok
        cases hok
        exact ⟨hfls, rfl, rfl⟩
      | some ts =>
        simp only [htime] at hok
        cases hok
        exact ⟨hfls, rfl, rfl⟩
    | some cls =>
      simp only [hcls] at hok
      by_cases hall : classColumnOk cls
      · rw [if_pos hall] at hok
        cases htime : (scoredDF (reconcile A.expected df0) preds proba).getCol "Time" with
        | none =>
          simp only [htime] at hok
          cases hok
          exact ⟨hfls, rfl, rfl⟩
        | some ts =>
          simp only [htime] at hok
          cases hok
          exact ⟨hfls, rfl, rfl⟩
      · rw [if_neg hall] at hok
        exact Except.noConfusion hok

/-! ## Claim C3: prevented-loss estimate -/

/-- C3 (corrected): when the table has an `Amount` column, the
prevented-loss figure of a successful run equals the sum of `Amount`
over exactly the rows predicted `1`; but when `Amount` is absent (and
not zero-filled from the schema), the whole request fails with the
`Amount` lookup error instead of reporting the estimate as
zero/unavailable with the rest of the outputs intact. -/
theorem prevented_loss_sum_or_fail (A : Artifacts) (df0 : DF)
    (preds : List ℤ) (proba : List ℚ)
    (hscore : scoreOf A df0 = some (preds, proba)) :
    (∀ amounts b, df0.getCol "Amount" = some amounts →
        update_output A df0 = Except.ok b →
        b.fraudLossSaved = specPreventedLoss preds amounts)
    ∧ ("Amount" ∉ df0.columns → "Amount" ∉ A.expected →
        update_output A df0 = Except.error (PError.keyError "Amount")) := by
  obtain ⟨X, hsel, _⟩ := select_reconcile A.expected df0
  have hsc : A.score X = some (preds, proba) := scoreOf_eq A df0 X _ hsel hscore
  constructor
  · intro amounts b hAm hok
    have hAmMem : "Amount" ∈ df0.columns := by
      rw [← DF.getCol_isSome_iff, hAm]
      rfl
    have hAm5 : (scoredDF (reconcile A.expected df0) preds proba).getCol "Amount"
        = some amounts := by
      rw [getCol_scored_reconcile A df0 preds proba "Amount"
        (by decide) (by decide) (by decide) (by decide), if_pos hAmMem]
      exact hAm
    have hfl :=
      (update_output_ok_fields A df0 X preds proba amounts b hsel hsc hAm5 hok).1
    rw [hfl, sumWhere_eq_specPreventedLoss]
  · intro h0 hE
    have hAm5 : (scoredDF (reconcile A.expected df0) preds proba).getCol "Amount"
        = none := by
      rw [getCol_scored_reconcile A df0 preds proba "Amount"
        (by decide) (by decide) (by decide) (by decide), if_neg h0, if_neg hE]
    simp only [update_output, hsel, hsc, hAm5]

section
attribute [local semireducible] Rat.add Rat.mul Rat.inv Rat.sub

/-- C3 counterexample: on a one-row table without an `Amount` column
(the schema does not contain `Amount` either), the whole pipeline
fails with the `Amount` lookup error — predictions, top-risk list and
distribution are all lost, instead of the estimate being reported as
zero/unavailable while the rest succeeds. -/
theorem prevented_loss_missing_amount_counterexample :
    update_output ⟨["V1"], fun _ => some ([0], [1])⟩ [("V1", [Cell.num 3])]
      = Except.error (PError.keyError "Amount") := by decide

/-- C3 witness: the claim theorem instantiated on a two-row table with
`Amount = [10, 20]` and predictions `[1, 0]`: the estimate is the sum
over the predicted-`1` rows. -/
theorem prevented_loss_sum_witness :
    ∃ b, update_output ⟨["V1"], fun _ => some ([1, 0], [1, 0])⟩
        [("V1", [Cell.num 1, Cell.num 2]), ("Amount", [Cell.num 10, Cell.num 20])]
        = Except.ok b
      ∧ b.fraudLossSaved = specPreventedLoss [1, 0] [Cell.num 10, Cell.num 20] := by
  have hok : update_output ⟨["V1"], fun _ => some ([1, 0], [1, 0])⟩
      [("V1", [Cell.num 1, Cell.num 2]), ("Amount", [Cell.num 10, Cell.num 20])]
      = Except.ok ⟨[("V1", [Cell.num 1, Cell.num 2]),
          ("Amount", [Cell.num 10, Cell.num 20]),
          ("Prediction", [Cell.num 1, Cell.num 0]),
          ("Prediction_Label", [Cell.str "Potentially Fraudulent",
            Cell.str "Not Fraudulent"]),
          ("Confidence", [Cell.num 1, Cell.num 0]),
          ("Risk_Level", [Cell.str "High Risk", Cell.str "Safe"])],
          10, [(0, 1)], (1, 1), none, none⟩ := by decide
  refine ⟨_, hok, ?_⟩
  exact (prevented_loss_sum_or_fail ⟨["V1"], fun _ => some ([1, 0], [1, 0])⟩
      [("V1", [Cell.num 1, Cell.num 2]), ("Amount", [Cell.num 10, Cell.num 20])]
      [1, 0] [1, 0] (by decide)).1
    [Cell.num 10, Cell.num 20] _ (by decide) hok

end

/-! ## Claim C5: malformed ground truth -/

/-- C5 (corrected): when the `Class` column is present but holds
malformed values — any value set outside sklearn's accepted binary
label sets, the nonempty subsets of `{0,1}` or of `{-1,1}` — the
evaluation failure is fatal to the whole request: the entire bundle —
predictions, analytics and download output included — is replaced by
the error result, not just the confusion-matrix and ROC outputs. -/
theorem malformed_class_aborts_bundle (A : Artifacts) (df0 : DF)
    (preds : List ℤ) (proba : List ℚ) (amounts cls : List Cell) (fls : ℚ)
    (hscore : scoreOf A df0 = some (preds, proba))
    (hAm : df0.getCol "Amount" = some amounts)
    (hchk : sumWhereChecked preds amounts = some fls)
    (hcls : df0.getCol "Class" = some cls)
    (hbad : ¬ classColumnOk cls) :
    update_output A df0 = Except.error PError.evaluationError := by
  obtain ⟨X, hsel, _⟩ := select_reconcile A.expected df0
  have hsc := scoreOf_eq A df0 X _ hsel hscore
  have hAmMem : "Amount" ∈ df0.columns := by
    rw [← DF.getCol_isSome_iff, hAm]
    rfl
  have hAm5 : (scoredDF (reconcile A.expected df0) preds proba).getCol "Amount"
      = some amounts := by
    rw [getCol_scored_reconcile A df0 preds proba "Amount"
      (by decide) (by decide) (by decide) (by decide), if_pos hAmMem]
    exact hAm
  have hClsMem : "Class" ∈ df0.columns := by
    rw [← DF.getCol_isSome_iff, hcls]
    rfl
  have hCls5 : (scoredDF (reconcile A.expected df0) preds proba).getCol "Class"
      = some cls := by
    rw [getCol_scored_reconcile A df0 preds proba "Class"
      (by decide) (by decide) (by decide) (by decide), if_pos hClsMem]
    exact hcls
  simp only [update_output, hsel, hsc, hAm5, hchk, hCls5, if_neg hbad]

section
attribute [local semireducible] Rat.add Rat.mul Rat.inv Rat.sub

/-- C5 counterexample: with `Class` holding the non-binary value
`"yes"`, the whole request evaluates to the evaluation error — the
predictions, analytics and download output are not returned. -/
theorem malformed_class_counterexample :
    update_output ⟨["V1"], fun _ => some ([1], [1])⟩
      [("V1", [Cell.num 1]), ("Amount", [Cell.num 5]),
       ("Class", [Cell.str "yes"])]
      = Except.error PError.evaluationError := by decide

/-- C5 witness: the claim theorem instantiated on a table whose
`Class` column holds the non-integral value `0.5`. -/
theorem malformed_class_aborts_witness :
    update_output ⟨["V1"], fun _ => some ([0], [0])⟩
      [("V1", [Cell.num 2]), ("Amount", [Cell.num 7]),
       ("Class", [Cell.num (1/2)])]
      = Except.error PError.evaluationError :=
  malformed_class_aborts_bundle _ _ [0] [0] [Cell.num 7] [Cell.num (1/2)] 0
    (by decide) (by decide) (by decide) (by decide) (by decide)

end

/-! ## Claim C9: reduced outputs without Time and Class -/

/-- C9 (corrected): for a table with an `Amount` column whose
prevented-loss sum is numeric (the line-126 sum and line-147 format do
not raise), neither a `Time` nor a `Class` column (nor either
introduced by the schema fill), and a successful scoring, the pipeline
succeeds and both the evaluation output and the trend output are
absent; without `Amount` — or with a non-numeric `Amount` column —
such a request fails, so the claim's unconditional success does not
hold. -/
theorem no_time_no_class_reduced (A : Artifacts) (df0 : DF)
    (preds : List ℤ) (proba : List ℚ) (amounts : List Cell) (fls : ℚ)
    (hscore : scoreOf A df0 = some (preds, proba))
    (hAm : df0.getCol "Amount" = some amounts)
    (hchk : sumWhereChecked preds amounts = some fls)
    (hTime0 : "Time" ∉ df0.columns) (hTimeE : "Time" ∉ A.expected)
    (hCls0 : "Class" ∉ df0.columns) (hClsE : "Class" ∉ A.expected) :
    ∃ b, update_output A df0 = Except.ok b
      ∧ b.evaluation = none ∧ b.trend = none := by
  obtain ⟨X, hsel, _⟩ := select_reconcile A.expected df0
  have hsc := scoreOf_eq A df0 X _ hsel hscore
  have hAmMem : "Amount" ∈ df0.columns := by
    rw [← DF.getCol_isSome_iff, hAm]
    rfl
  have hAm5 : (scoredDF (reconcile A.expected df0) preds proba).getCol "Amount"
      = some amounts := by
    rw [getCol_scored_reconcile A df0 preds proba "Amount"
      (by decide) (by decide) (by decide) (by decide), if_pos hAmMem]
    exact hAm
  have hCls5 : (scoredDF (reconcile A.expected df0) preds proba).getCol "Class"
      = none := by
    rw [getCol_scored_reconcile A df0 preds proba "Class"
      (by decide) (by decide) (by decide) (by decide), if_neg hCls0, if_neg hClsE]
  have hTime5 : (scoredDF (reconcile A.expected df0) preds proba).getCol "Time"
      = none := by
    rw [getCol_scored_reconcile A df0 preds proba "Time"
      (by decide) (by decide) (by decide) (by decide), if_neg hTime0, if_neg hTimeE]
  refine ⟨⟨scoredDF (reconcile A.expected df0) preds proba,
      fls, topRiskRows preds proba,
      (preds.count 0, preds.count 1), none, none⟩, ?_, rfl, rfl⟩
  simp only [update_output, hsel, hsc, hAm5, hchk, hCls5, hTime5]

/-- C9 counterexample: a table with neither `Time` nor `Class` but
without `Amount` fails with the `Amount` lookup error, and one whose
`Amount` column holds a string on a predicted row fails with the
sum/format error, so "for every such table the pipeline succeeds with
no error" is false. -/
theorem no_time_no_class_counterexample :
    update_output ⟨["V1"], fun _ => some ([1], [1])⟩ [("V1", [Cell.num 9])]
      = Except.error (PError.keyError "Amount")
    ∧ update_output ⟨["V1"], fun _ => some ([1], [1])⟩
        [("V1", [Cell.num 9]), ("Amount", [Cell.str "x"])]
      = Except.error PError.valueError := by
  refine ⟨by decide, by decide⟩

/-- C9 witness: the claim theorem instantiated on a table with `V1`
and `Amount` columns only. -/
theorem no_time_no_class_reduced_witness :
    ∃ b, update_output ⟨["V1"], fun _ => some ([0], [0])⟩
        [("V1", [Cell.num 4]), ("Amount", [Cell.num 6])] = Except.ok b
      ∧ b.evaluation = none ∧ b.trend = none :=
  no_time_no_class_reduced _ _ [0] [0] [Cell.num 6] 0
    (by decide) (by decide) (by decide) (by decide) (by decide) (by decide)
    (by decide)

/-! ## Claim C7: download CSV columns -/

/-- C7 (corrected): the frame serialized for download carries the
uploaded table's original columns, then any schema columns that were
absent from the input (zero-filled by reconciliation), then
`Prediction`, `Prediction_Label`, `Confidence`, `Risk_Level`, and —
when a `Time` column is present — also the `Date` column appended by
the trend step; so it is not limited to the original columns plus the
four appended ones. -/
theorem download_table_columns (A : Artifacts) (df0 : DF) (b : Bundle)
    (he : A.expected.Nodup)
    (hfr : "Prediction" ∉ df0.columns) (hfrE : "Prediction" ∉ A.expected)
    (hfl : "Prediction_Label" ∉ df0.columns)
    (hflE : "Prediction_Label" ∉ A.expected)
    (hfc : "Confidence" ∉ df0.columns) (hfcE : "Confidence" ∉ A.expected)
    (hfv : "Risk_Level" ∉ df0.columns) (hfvE : "Risk_Level" ∉ A.expected)
    (hfd : "Date" ∉ df0.columns) (hfdE : "Date" ∉ A.expected)
    (hok : update_output A df0 = Except.ok b) :
    b.table.columns =
      df0.columns ++ A.expected.filter (fun c => decide (c ∉ df0.columns))
        ++ ["Prediction", "Prediction_Label", "Confidence", "Risk_Level"]
        ++ (if "Time" ∈ df0.columns ∨ "Time" ∈ A.expected then ["Date"]
            else []) := by
  obtain ⟨X, hsel, _⟩ := select_reconcile A.expected df0
  have hRcols := columns_reconcile A.expected df0 he
  have hnotR : ∀ n : Col, n ∉ df0.columns → n ∉ A.expected →
      n ∉ (reconcile A.expected df0).columns := by
    intro n h1 h2 hmem
    rcases (mem_columns_reconcile A.expected df0 n).mp hmem with h | h
    exacts [h1 h, h2 h]
  have hcols5 : ∀ (preds : List ℤ) (proba : List ℚ),
      (scoredDF (reconcile A.expected df0) preds proba).columns
        = (reconcile A.expected df0).columns
          ++ ["Prediction", "Prediction_Label", "Confidence", "Risk_Level"] :=
    fun preds proba => columns_scoredDF _ preds proba
      (hnotR _ hfr hfrE) (hnotR _ hfl hflE) (hnotR _ hfc hfcE)
      (hnotR _ hfv hfvE)
  cases hscX : A.score X with
  | none =>
    simp only [update_output, hsel, hscX] at hok
    exact Except.noConfusion hok
  | some pq =>
    obtain ⟨preds, proba⟩ := pq
    have hDate5 : "Date" ∉
        (scoredDF (reconcile A.expected df0) preds proba).columns := by
      rw [hcols5]
      simp [hnotR "Date" hfd hfdE]
    cases hAm : (scoredDF (reconcile A.expected df0) preds proba).getCol "Amount" with
    | none =>
      simp only [update_output, hsel, hscX, hAm] at hok
      exact Except.noConfusion hok
    | some amounts =>
      cases hchk : sumWhereChecked preds amounts with
      | none =>
        simp only [update_output, hsel, hscX, hAm, hchk] at hok
        exact Except.noConfusion hok
      | some fls =>
        have hTimeOther := getCol_scoredDF (reconcile A.expected df0) preds proba
          "Time" (by decide) (by decide) (by decide) (by decide)
        cases hcl : (scoredDF (reconcile A.expected df0) preds proba).getCol "Class" with
        | none =>
          cases htime : (scoredDF (reconcile A.expected df0) preds proba).getCol "Time" with
          | none =>
            simp only [update_output, hsel, hscX, hAm, hchk, hcl, htime] at hok
            cases hok
            have hTnot : ¬("Time" ∈ df0.columns ∨ "Time" ∈ A.expected) := by
              intro hor
              have hmem : "Time" ∈ (reconcile A.expected df0).columns :=
                (mem_columns_reconcile A.expected df0 "Time").mpr hor
              rw [← DF.getCol_isSome_iff] at hmem
              rw [hTimeOther] at htime
              rw [htime] at hmem
              exact absurd hmem (by simp)
            rw [if_neg hTnot]
            show (scoredDF (reconcile A.expected df0) preds proba).columns = _
            rw [hcols5, hRcols]
            simp [List.append_assoc]
          | some ts =>
            simp only [update_output, hsel, hscX, hAm, hchk, hcl, htime] at hok
            cases hok
            have hTmem : "Time" ∈ df0.columns ∨ "Time" ∈ A.expected := by
              rw [hTimeOther] at htime
              have hmem : "Time" ∈ (reconcile A.expected df0).columns := by
                rw [← DF.getCol_isSome_iff, htime]
                rfl
              exact (mem_columns_reconcile A.expected df0 "Time").mp hmem
            rw [if_pos hTmem]
            show ((scoredDF (reconcile A.expected df0) preds proba).setCol
              "Date" (ts.map toDate)).columns = _
            rw [DF.columns_setCol_of_not_mem _ _ _ hDate5, hcols5, hRcols]
        | some cls =>
          by_cases hall : classColumnOk cls
          · cases htime : (scoredDF (reconcile A.expected df0) preds proba).getCol "Time" with
            | none =>
              simp only [update_output, hsel, hscX, hAm, hchk, hcl] at hok
              rw [if_pos hall] at hok
              simp only [htime] at hok
              cases hok
              have hTnot : ¬("Time" ∈ df0.columns ∨ "Time" ∈ A.expected) := by
                intro hor
                have hmem : "Time" ∈ (reconcile A.expected df0).columns :=
                  (mem_columns_reconcile A.expected df0 "Time").mpr hor
                rw [← DF.getCol_isSome_iff] at hmem
                rw [hTimeOther] at htime
                rw [htime] at hmem
                exact absurd hmem (by simp)
              rw [if_neg hTnot]
              show (scoredDF (reconcile A.expected df0) preds proba).columns = _
              rw [hcols5, hRcols]
              simp [List.append_assoc]
            | some ts =>
              simp only [update_output, hsel, hscX, hAm, hchk, hcl] at hok
              rw [if_pos hall] at hok
              simp only [htime] at hok
              cases hok
              have hTmem : "Time" ∈ df0.columns ∨ "Time" ∈ A.expected := by
                rw [hTimeOther] at htime
                have hmem : "Time" ∈ (reconcile A.expected df0).columns := by
                  rw [← DF.getCol_isSome_iff, htime]
                  rfl
                exact (mem_columns_reconcile A.expected df0 "Time").mp hmem
              rw [if_pos hTmem]
              show ((scoredDF (reconcile A.expected df0) preds proba).setCol
                "Date" (ts.map toDate)).columns = _
              rw [DF.columns_setCol_of_not_mem _ _ _ hDate5, hcols5, hRcols]
          · simp only [update_output, hsel, hscX, hAm, hchk, hcl] at hok
            rw [if_neg hall] at hok
            exact Except.noConfusion hok

section
attribute [local semireducible] Rat.add Rat.mul Rat.inv Rat.sub

/-- C7 counterexample: with a `Time` column present, the download
frame also carries the appended `Date` column, so its columns are not
exactly the original ones plus the four prediction columns. -/
theorem download_extra_date_counterexample :
    (update_output ⟨["V1"], fun _ => some ([1], [1])⟩
        [("V1", [Cell.num 1]), ("Amount", [Cell.num 2]),
         ("Time", [Cell.num 0])]).map (fun b => b.table.columns)
      = Except.ok ["V1", "Amount", "Time", "Prediction", "Prediction_Label",
          "Confidence", "Risk_Level", "Date"]
    ∧ (update_output ⟨["V1"], fun _ => some ([1], [1])⟩
        [("V1", [Cell.num 1]), ("Amount", [Cell.num 2]),
         ("Time", [Cell.num 0])]).map (fun b => b.table.columns)
      ≠ Except.ok ["V1", "Amount", "Time", "Prediction", "Prediction_Label",
          "Confidence", "Risk_Level"] := by
  refine ⟨by decide, by decide⟩

/-- C7 witness: the claim theorem instantiated on a table with only an
`Amount` column: the download columns are the original column, the
zero-filled schema column, and the four appended columns. -/
theorem download_table_columns_witness :
    ∃ b, update_output ⟨["V1"], fun _ => some ([1], [1])⟩
        [("Amount", [Cell.num 3])] = Except.ok b
      ∧ b.table.columns = ["Amount", "V1", "Prediction", "Prediction_Label",
          "Confidence", "Risk_Level"] := by
  have hok : update_output ⟨["V1"], fun _ => some ([1], [1])⟩
      [("Amount", [Cell.num 3])]
      = Except.ok ⟨[("Amount", [Cell.num 3]), ("V1", [Cell.num 0]),
          ("Prediction", [Cell.num 1]),
          ("Prediction_Label", [Cell.str "Potentially Fraudulent"]),
          ("Confidence", [Cell.num 1]),
          ("Risk_Level", [Cell.str "High Risk"])],
          3, [(0, 1)], (0, 1), none, none⟩ := by decide
  refine ⟨_, hok, ?_⟩
  rw [download_table_columns ⟨["V1"], fun _ => some ([1], [1])⟩
    [("Amount", [Cell.num 3])] _ (by decide) (by decide) (by decide)
    (by decide) (by decide) (by decide) (by decide) (by decide) (by decide)
    (by decide) (by decide) hok]
  decide

end

/-! ## Claim C6: the programmatic endpoint -/

/-- C6 (corrected): the endpoint returns `400` when the request has no
file field or an empty file name, `500` when parsing or scoring
raises, and on success `200` with a `Content-Disposition: attachment`
header; the returned CSV's columns are the original columns, plus any
schema columns absent from the input (zero-filled by reconciliation),
plus `Prediction` and `Confidence` — not only the original columns
plus the two appended ones. -/
theorem predict_csv_contract (A : Artifacts) (df0 : DF) (n : String)
    (he : A.expected.Nodup)
    (hp0 : "Prediction" ∉ df0.columns) (hpE : "Prediction" ∉ A.expected)
    (hc0 : "Confidence" ∉ df0.columns) (hcE : "Confidence" ∉ A.expected)
    (hn : n ≠ "") :
    (predict_csv A none).status = 400
    ∧ (predict_csv A (some ("", some df0))).status = 400
    ∧ (predict_csv A (some (n, none))).status = 500
    ∧ (scoreOf A df0 = none → (predict_csv A (some (n, some df0))).status = 500)
    ∧ (∀ preds proba, scoreOf A df0 = some (preds, proba) →
        (predict_csv A (some (n, some df0))).status = 200
        ∧ (predict_csv A (some (n, some df0))).contentDisposition
            = some "attachment; filename=predictions.csv"
        ∧ ∃ body, (predict_csv A (some (n, some df0))).body = some body
            ∧ body.columns = df0.columns
                ++ A.expected.filter (fun c => decide (c ∉ df0.columns))
                ++ ["Prediction", "Confidence"]) := by
  obtain ⟨X, hsel, _⟩ := select_reconcile A.expected df0
  have hnotR : ∀ m : Col, m ∉ df0.columns → m ∉ A.expected →
      m ∉ (reconcile A.expected df0).columns := by
    intro m h1 h2 hmem
    rcases (mem_columns_reconcile A.expected df0 m).mp hmem with h | h
    exacts [h1 h, h2 h]
  refine ⟨rfl, by simp [predict_csv], by simp [predict_csv, hn], ?_, ?_⟩
  · intro hnone
    have hsc := scoreOf_eq A df0 X _ hsel hnone
    simp only [predict_csv, if_neg hn, hsel, hsc]
  · intro preds proba hsome
    have hsc := scoreOf_eq A df0 X _ hsel hsome
    have hred : predict_csv A (some (n, some df0)) =
        ⟨200, some "attachment; filename=predictions.csv",
          some (((reconcile A.expected df0).setCol "Prediction"
              (preds.map (fun p => Cell.num (p : ℚ)))).setCol "Confidence"
              (proba.map Cell.num))⟩ := by
      simp only [predict_csv, if_neg hn, hsel, hsc]
    refine ⟨by rw [hred], by rw [hred], _, by rw [hred], ?_⟩
    have e1 : ((reconcile A.expected df0).setCol "Prediction"
        (preds.map (fun p => Cell.num (p : ℚ)))).columns
        = (reconcile A.expected df0).columns ++ ["Prediction"] :=
      DF.columns_setCol_of_not_mem _ _ _ (hnotR _ hp0 hpE)
    have e2 : "Confidence" ∉ ((reconcile A.expected df0).setCol "Prediction"
        (preds.map (fun p => Cell.num (p : ℚ)))).columns := by
      rw [e1]
      simp [hnotR _ hc0 hcE]
    rw [DF.columns_setCol_of_not_mem _ _ _ e2, e1,
      columns_reconcile A.expected df0 he]
    simp [List.append_assoc]

section
attribute [local semireducible] Rat.add Rat.mul Rat.inv Rat.sub

/-- C6 counterexample: when the input is missing the schema column
`V1`, the returned CSV contains the zero-filled `V1` column as well,
so its columns are not just the original ones plus `Prediction` and
`Confidence`. -/
theorem predict_csv_filled_columns_counterexample :
    ((predict_csv ⟨["V1"], fun _ => some ([0], [0])⟩
        (some ("f.csv", some [("Amount", [Cell.num 3])]))).body).map
          DF.columns
      = some ["Amount", "V1", "Prediction", "Confidence"]
    ∧ ((predict_csv ⟨["V1"], fun _ => some ([0], [0])⟩
        (some ("f.csv", some [("Amount", [Cell.num 3])]))).body).map
          DF.columns
      ≠ some ["Amount", "Prediction", "Confidence"] := by
  refine ⟨by decide, by decide⟩

/-- C6 witness: the claim theorem instantiated on a one-column upload
against a one-column schema. -/
theorem predict_csv_contract_witness :
    (predict_csv ⟨["V1"], fun _ => some ([0], [0])⟩ none).status = 400
    ∧ (predict_csv ⟨["V1"], fun _ => some ([0], [0])⟩
        (some ("f.csv", none))).status = 500
    ∧ ∃ body, (predict_csv ⟨["V1"], fun _ => some ([0], [0])⟩
        (some ("f.csv", some [("Amount", [Cell.num 3])]))).body = some body
      ∧ body.columns = ["Amount", "V1", "Prediction", "Confidence"] := by
  obtain ⟨h1, h2, h3, h4, h5⟩ :=
    predict_csv_contract ⟨["V1"], fun _ => some ([0], [0])⟩
      [("Amount", [Cell.num 3])] "f.csv" (by decide) (by decide) (by decide)
      (by decide) (by decide) (by decide)
  obtain ⟨hs, hcd, body, hbody, hcols⟩ := h5 [0] [0] (by decide)
  refine ⟨h1, h3, body, hbody, ?_⟩
  rw [hcols]
  decide

end
